/-
Verification of the pgeodistance postal-code geo-distance engine.

This file gives a shallow embedding of the core of `pgeodistance.py`:
the postal-code normalizer (`preprocess_postal_code`), the URL fallback
cycler (`_open_extract_cycle_url`), the raw/unique table caches
(`get_raw_geo_data`, `get_unique_geo_data`), and the query surface
(`get_geolocation`, `query_postal_code`, `query_geolocation`).

Modelling conventions:
- Python strings are Lean `String`s (operated on through `String.data`).
- pandas DataFrame rows are records (`RawRecord`); a table is a list of rows.
- Floats are modelled as `Rat`.
- Python exceptions are values of `PyErr`; fallible functions return `Except`.
- Stateful code is explicit state passing over `GeoState` (disk files and the
  in-process cache); observable side effects are logged as a list of `Ev`
  events (disk reads/writes, downloads, warnings, informational prints).
- External collaborators (HTTP transport, haversine) are fields of `GeoEnv`.
-/
import Mathlib

namespace PGeo

/-! ### Python exception model

Python's exception hierarchy, restricted to the classes that can escape the
modelled code: `HTTPError`/`URLError` from `urllib`, `ValueError` from the
URL-cycle guard, `KeyError` from a pandas `.loc` miss, `AttributeError` from
attribute access on `None`, and `IndexError` from `[0]` on an empty list.
In Python, `LookupError` is the base class of exactly `KeyError` and
`IndexError`; `AttributeError` is not a `LookupError`. -/

instance {ε α : Type} [DecidableEq ε] [DecidableEq α] : DecidableEq (Except ε α) :=
  fun x y =>
    match x, y with
    | .ok a, .ok b =>
      if h : a = b then isTrue (by rw [h]) else isFalse (by intro hc; cases hc; exact h rfl)
    | .error a, .error b =>
      if h : a = b then isTrue (by rw [h]) else isFalse (by intro hc; cases hc; exact h rfl)
    | .ok _, .error _ => isFalse (by intro hc; cases hc)
    | .error _, .ok _ => isFalse (by intro hc; cases hc)

inductive PyErr where
  | httpError
  | urlError
  | valueError
  | keyError
  | attrError
  | indexError
deriving DecidableEq, Repr

/-- Whether a Python exception is an instance of `LookupError`
(base class of `KeyError` and `IndexError` only). -/
def isLookupError : PyErr → Bool
  | .keyError => true
  | .indexError => true
  | _ => false

/-! ### Python string primitives used by `preprocess_postal_code` -/

/-- The whitespace characters recognized by Python's `str.split()`
(restricted to the ASCII range). -/
def pyIsSpace (c : Char) : Bool :=
  c == ' ' || c == '\t' || c == '\n' || c == '\r' || c == '\x0b' || c == '\x0c'

/-- `str.upper()` on a single ASCII character. -/
def pyUpperChar (c : Char) : Char :=
  if 'a' ≤ c ∧ c ≤ 'z' then Char.ofNat (c.toNat - 32) else c

/-- `str.upper()`. -/
def pyStrUpper (s : String) : String :=
  ⟨s.data.map pyUpperChar⟩

/-- Worker for `pySplitWs`; `acc` is the current word, reversed. -/
def splitAux : List Char → List Char → List (List Char)
  | [], acc => if acc = [] then [] else [acc.reverse]
  | c :: cs, acc =>
    if pyIsSpace c then
      if acc = [] then splitAux cs [] else acc.reverse :: splitAux cs []
    else
      splitAux cs (c :: acc)

/-- Python's `str.split()` with no argument: split on runs of whitespace,
discarding empty words. -/
def pySplitWs (l : List Char) : List (List Char) :=
  splitAux l []

/-! ### `_open_extract_cycle_url`: ordered fallback over URL templates

The transport capability is a function from a URL to either content or a
`FetchErr`: `.http` models `urllib.error.HTTPError` (the only class the
source's `except` clause catches), `.other` models any other transport
failure (e.g. a non-HTTP `URLError`). -/

inductive FetchErr where
  | http
  | other
deriving DecidableEq, Repr

inductive CycleErr where
  | config
  | fetch (e : FetchErr)
deriving DecidableEq, Repr

/-- One pass of the `for idx, val in enumerate(urls)` loop of
`_open_extract_cycle_url`, returning the result, the list of URLs actually
attempted (in order), and the number of `warnings.warn` calls.  On success:
stop (`break`).  On `HTTPError`: re-raise if this was the last URL, else warn
and continue.  On any other transport failure: the `except` clause does not
match, so the exception propagates at once.  The `[]` case is unreachable
from `cycleUrl` (it corresponds to the dead `for ... else: raise ValueError`
arm of the source). -/
def cycleGo {α : Type} (f : String → Except FetchErr α) :
    List String → Except CycleErr α × List String × Nat
  | [] => (.error .config, [], 0)
  | [u] =>
    match f u with
    | .ok a => (.ok a, [u], 0)
    | .error e => (.error (.fetch e), [u], 0)
  | u :: v :: rest =>
    match f u with
    | .ok a => (.ok a, [u], 0)
    | .error .http =>
      let r := cycleGo f (v :: rest)
      (r.1, u :: r.2.1, r.2.2 + 1)
    | .error .other => (.error (.fetch .other), [u], 0)

/-- `_open_extract_cycle_url(urls, country)`: guard that `urls` is a
non-empty list (raising `ValueError`, the source's configuration error),
then cycle.  (The "not a list" half of the guard is excluded by typing.) -/
def cycleUrl {α : Type} (f : String → Except FetchErr α) (urls : List String) :
    Except CycleErr α × List String × Nat :=
  if urls = [] then (.error .config, [], 0) else cycleGo f urls

/-! ### Data model -/

/-- The fixed 12-column schema (`DATA_FIELDS` in the source). -/
def DATA_FIELDS : List String :=
  ["country_code", "postal_code", "place_name", "state_name", "state_code",
   "county_name", "county_code", "community_name", "community_code",
   "latitude", "longitude", "accuracy"]

/-- The two built-in provider URL templates (`DOWNLOAD_URL` in the source). -/
def DOWNLOAD_URL : List String :=
  ["https://download.geonames.org/export/zip/{country}.zip",
   "https://symerio.github.io/postal-codes-data/data/geonames/{country}.txt"]

/-- The fixed catalog of valid country codes (`COUNTRIES_VALID`). -/
def COUNTRIES_VALID : List String :=
  ["AD", "AR", "AS", "AT", "AU", "AX", "BD", "BE", "BG", "BM", "BR", "BY",
   "CA", "CH", "CO", "CR", "CZ", "DE", "DK", "DO", "DZ", "ES", "FI", "FO",
   "FR", "GB", "GF", "GG", "GL", "GP", "GT", "GU", "HR", "HU", "IE", "IM",
   "IN", "IS", "IT", "JE", "JP", "LI", "LK", "LT", "LU", "LV", "MC", "MD",
   "MH", "MK", "MP", "MQ", "MT", "MX", "MY", "NC", "NL", "NO", "NZ", "PH",
   "PK", "PL", "PM", "PR", "PT", "RE", "RO", "RU", "SE", "SI", "SJ", "SK",
   "SM", "TH", "TR", "UA", "US", "UY", "VA", "VI", "WF", "YT", "ZA"]

/-- One row of a per-country table (raw or unique): the 12 fixed columns.
`postal_code` is always kept as a string (preserving leading zeros); the
coordinates are numeric; the remaining columns are kept as cell text. -/
structure RawRecord where
  country_code : String
  postal_code : String
  place_name : String
  state_name : String
  state_code : String
  county_name : String
  county_code : String
  community_name : String
  community_code : String
  latitude : Rat
  longitude : Rat
  accuracy : String
deriving DecidableEq, Repr

instance : Inhabited RawRecord :=
  ⟨{ country_code := "", postal_code := "", place_name := "", state_name := "",
     state_code := "", county_name := "", county_code := "",
     community_name := "", community_code := "", latitude := 0,
     longitude := 0, accuracy := "" }⟩

abbrev RawTable := List RawRecord

/-- A unique table has the same 12-column schema as a raw table
("persist to the cache file, same format as raw"). -/
abbrev UniqueTable := List RawRecord

/-! ### The dedup/aggregation step of `get_unique_geo_data` -/

/-- `df.mean()` on one numeric column of a group. -/
def ratMean (l : List Rat) : Rat :=
  l.sum / (l.length : Rat)

/-- `", ".join([str(el) for el in x])`. -/
def joinCommaSpace (l : List String) : String :=
  String.intercalate ", " l

/-- The exclusion list passed to `set(DATA_FIELDS).difference(...)` in the
source, verbatim — note the misspelling `"lattitude"`, which is not a member
of `DATA_FIELDS`, so the real `latitude` column is *not* excluded. -/
def excludedKeys : List String :=
  ["place_name", "lattitude", "longitude", "postal_code"]

/-- `valid_keys = set(DATA_FIELDS).difference(excludedKeys)`.  (The source
iterates a Python set in arbitrary order; the fold below is order-independent
because each key updates a distinct field, so list order is immaterial.) -/
def validKeys : List String :=
  DATA_FIELDS.filter (fun k => !(excludedKeys.contains k))

/-- `unique_geo_data[key] = df_unique_cp_group[key].first()` for one column
name `key`: overwrite the named field of `acc` with its value in `src`, the
first row of the group. -/
def setFieldFromFirst (acc : RawRecord) (k : String) (src : RawRecord) : RawRecord :=
  if k = "country_code" then { acc with country_code := src.country_code }
  else if k = "postal_code" then { acc with postal_code := src.postal_code }
  else if k = "place_name" then { acc with place_name := src.place_name }
  else if k = "state_name" then { acc with state_name := src.state_name }
  else if k = "state_code" then { acc with state_code := src.state_code }
  else if k = "county_name" then { acc with county_name := src.county_name }
  else if k = "county_code" then { acc with county_code := src.county_code }
  else if k = "community_name" then { acc with community_name := src.community_name }
  else if k = "community_code" then { acc with community_code := src.community_code }
  else if k = "latitude" then { acc with latitude := src.latitude }
  else if k = "longitude" then { acc with longitude := src.longitude }
  else if k = "accuracy" then { acc with accuracy := src.accuracy }
  else acc

/-- Aggregate one postal-code group: mean coordinates, comma-joined place
names in encounter order, then overwrite every column in `validKeys` with the
group's first value (this is where the `"lattitude"` misspelling makes the
source clobber the mean latitude with the first row's latitude). -/
def aggGroup (k : String) (rows : List RawRecord) : RawRecord :=
  match rows with
  | [] => default
  | r0 :: _ =>
    let base : RawRecord :=
      { country_code := "", postal_code := k,
        place_name := joinCommaSpace (rows.map (fun r => r.place_name)),
        state_name := "", state_code := "", county_name := "",
        county_code := "", community_name := "", community_code := "",
        latitude := ratMean (rows.map (fun r => r.latitude)),
        longitude := ratMean (rows.map (fun r => r.longitude)),
        accuracy := "" }
    validKeys.foldl (fun acc key => setFieldFromFirst acc key r0) base

/-- Insertion into a ≤-sorted list of keys. -/
def insertSorted (s : String) : List String → List String
  | [] => [s]
  | t :: ts => if s ≤ t then s :: t :: ts else t :: insertSorted s ts

/-- Insertion sort over group keys (pandas `groupby` sorts keys ascending). -/
def sortKeys (l : List String) : List String :=
  l.foldr insertSorted []

/-- The distinct postal codes of a raw table, in first-seen order. -/
def distinctKeysAux (seen : List String) : List String → List String
  | [] => []
  | k :: rest =>
    if k ∈ seen then distinctKeysAux seen rest
    else k :: distinctKeysAux (k :: seen) rest

def distinctKeys (l : List String) : List String :=
  distinctKeysAux [] l

/-- The group keys of `raw.groupby("postal_code")`: distinct postal codes,
sorted ascending. -/
def groupKeys (raw : RawTable) : List String :=
  sortKeys (distinctKeys (raw.map (fun r => r.postal_code)))

/-- The dedup/aggregation branch of `get_unique_geo_data`: group the raw rows
by `postal_code` (each group keeps the raw-table row order) and aggregate
each group.  `reset_index()[DATA_FIELDS]` only reorders columns, which the
record representation makes a no-op. -/
def computeUnique (raw : RawTable) : UniqueTable :=
  (groupKeys raw).map (fun k => aggGroup k (raw.filter (fun r => r.postal_code == k)))

/-! ### The engine: state, environment, observable events -/

/-- Observable side effects of the engine. -/
inductive Ev where
  | rawRead (country : String)
  | fetched (url : String)
  | rawWrite (country : String)
  | uniqueRead (country : String)
  | uniqueWrite (country : String)
  | printedInvalidCountry (country : String)
  | warnedAR
deriving DecidableEq, Repr

/-- External collaborators and construction-time configuration of a
`GlobalGeoDistance` instance: the transport capability (fetch and parse one
URL into a raw table), the `force_download` flag, and the external
`haversine` formula. -/
structure GeoEnv where
  fetch : String → Except FetchErr RawTable
  force : Bool
  hav : Rat × Rat → Rat × Rat → Rat

/-- Mutable state: the on-disk per-country raw and unique cache files
(keyed by uppercase country code) and the in-process
`self._unique_geo_data` mapping. -/
structure GeoState where
  rawDisk : String → Option RawTable
  uniqueDisk : String → Option UniqueTable
  cache : List (String × UniqueTable)

/-- The in-process mapping only ever holds valid country codes (it is
populated only after the catalog check passes). -/
def GeoState.WF (s : GeoState) : Prop :=
  ∀ p ∈ s.cache, p.1 ∈ COUNTRIES_VALID

/-- Python dict lookup on the in-process mapping (later inserts are
prepended, so the first match is the current binding). -/
def cacheLookup : List (String × UniqueTable) → String → Option UniqueTable
  | [], _ => none
  | (k, v) :: rest, c => if c = k then some v else cacheLookup rest c

/-- How an escaped `cycleUrl` error reads as a Python exception. -/
def cycleErrToPy : CycleErr → PyErr
  | .config => .valueError
  | .fetch .http => .httpError
  | .fetch .other => .urlError

/-- `GlobalGeoDistance.get_raw_geo_data`: return the parsed on-disk raw file
if it exists and forced refresh is off; otherwise download via the URL
cycle (templates interpolated with the country as passed), persist the
parsed table, and return it. -/
def get_raw_geo_data (env : GeoEnv) (s : GeoState) (country : String) :
    Except PyErr RawTable × GeoState × List Ev :=
  let C := pyStrUpper country
  match s.rawDisk C, env.force with
  | some t, false => (.ok t, s, [.rawRead C])
  | _, _ =>
    let urls := DOWNLOAD_URL.map (fun t => t.replace "{country}" country)
    match cycleUrl env.fetch urls with
    | (.ok t, att, _) =>
      (.ok t,
       { s with rawDisk := fun k => if k = C then some t else s.rawDisk k },
       att.map Ev.fetched ++ [.rawWrite C])
    | (.error e, att, _) => (.error (cycleErrToPy e), s, att.map Ev.fetched)

/-- `GlobalGeoDistance.get_unique_geo_data`: uppercase the country; return
the in-process entry if present; soft-fail with an informational print (and
`None`) on an invalid country; warn for `"AR"`; then *unconditionally* obtain
the raw table; then either parse the on-disk unique file (if present and
forced refresh is off) or dedup/aggregate the raw table and persist the
result; finally store the table in the in-process mapping and return it. -/
def get_unique_geo_data (env : GeoEnv) (s : GeoState) (country : String) :
    Except PyErr (Option UniqueTable) × GeoState × List Ev :=
  let C := pyStrUpper country
  match cacheLookup s.cache C with
  | some t => (.ok (some t), s, [])
  | none =>
    if C ∈ COUNTRIES_VALID then
      let evAR : List Ev := if C = "AR" then [.warnedAR] else []
      match get_raw_geo_data env s C with
      | (.error e, s1, evs) => (.error e, s1, evAR ++ evs)
      | (.ok raw, s1, evs) =>
        match s1.uniqueDisk C, env.force with
        | some u, false =>
          (.ok (some u),
           { s1 with cache := (C, u) :: s1.cache },
           evAR ++ evs ++ [.uniqueRead C])
        | _, _ =>
          let u := computeUnique raw
          (.ok (some u),
           { s1 with
             uniqueDisk := fun k => if k = C then some u else s1.uniqueDisk k,
             cache := (C, u) :: s1.cache },
           evAR ++ evs ++ [.uniqueWrite C])
    else
      (.ok none, s, [.printedInvalidCountry C])

/-- `GlobalGeoDistance.preprocess_postal_code`: empty string passes through;
otherwise uppercase, and for GB/IE/CA keep only the first
whitespace-delimited segment (`code.split()[0]`, which raises `IndexError`
when the split is empty).  (Integer input is `str()`-coerced in the source;
codes are modelled as the resulting strings.) -/
def preprocess_postal_code (code country : String) : Except PyErr String :=
  if code = "" then .ok code
  else
    let cU := pyStrUpper country
    let codeU := pyStrUpper code
    if cU ∈ (["GB", "IE", "CA"] : List String) then
      match pySplitWs codeU.data with
      | [] => .error .indexError
      | w :: _ => .ok ⟨w⟩
    else .ok codeU

/-- `GlobalGeoDistance.get_geolocation`: preprocess the code, load the
unique table, and extract `(latitude, longitude)` by `.loc` lookup.  The
source's bare `except: raise` re-raises every failure (its `return None` is
dead code): an `AttributeError` when the table is `None` (invalid country), a
`KeyError` when the code is absent. -/
def get_geolocation (env : GeoEnv) (s : GeoState) (code country : String) :
    Except PyErr (Rat × Rat) × GeoState × List Ev :=
  match preprocess_postal_code code country with
  | .error e => (.error e, s, [])
  | .ok code' =>
    match get_unique_geo_data env s country with
    | (.error e, s1, evs) => (.error e, s1, evs)
    | (.ok none, s1, evs) => (.error .attrError, s1, evs)
    | (.ok (some t), s1, evs) =>
      match t.find? (fun r => r.postal_code == code') with
      | none => (.error .keyError, s1, evs)
      | some r => (.ok (r.latitude, r.longitude), s1, evs)

/-- `GlobalGeoDistance.query_geolocation`: `0` for equal points, else the
external haversine distance. -/
def query_geolocation (env : GeoEnv) (x y : Rat × Rat) : Rat :=
  if x = y then 0 else env.hav x y

/-- `GlobalGeoDistance.query_postal_code`: identity short-circuit to `0`
before anything else; otherwise resolve both geolocations and take the
distance.  (The source's `if geolocation_x is None ...: return None` guard is
dead, since `get_geolocation` re-raises instead of returning `None`.) -/
def query_postal_code (env : GeoEnv) (s : GeoState)
    (code_x country_x code_y country_y : String) :
    Except PyErr (Option Rat) × GeoState × List Ev :=
  if code_x = code_y ∧ country_x = country_y then (.ok (some 0), s, [])
  else
    match get_geolocation env s code_x country_x with
    | (.error e, s1, evs) => (.error e, s1, evs)
    | (.ok gx, s1, evs) =>
      match get_geolocation env s1 code_y country_y with
      | (.error e, s2, evs') => (.error e, s2, evs ++ evs')
      | (.ok gy, s2, evs') =>
        (.ok (some (query_geolocation env gx gy)), s2, evs ++ evs')

/-! ### Concrete fixtures used by counterexamples and witnesses -/

/-- A raw-table row for US postal code 10001. -/
def recUS1 : RawRecord :=
  { country_code := "US", postal_code := "10001", place_name := "New York",
    state_name := "New York", state_code := "NY", county_name := "New York",
    county_code := "061", community_name := "", community_code := "",
    latitude := 40, longitude := -73, accuracy := "4" }

/-- Two raw rows sharing postal code `"111"` with distinct coordinates,
place names, and other fields. -/
def rawPair : RawTable :=
  [{ country_code := "US", postal_code := "111", place_name := "A",
     state_name := "S1", state_code := "C1", county_name := "N1",
     county_code := "K1", community_name := "M1", community_code := "Q1",
     latitude := 10, longitude := 3, accuracy := "1" },
   { country_code := "XX", postal_code := "111", place_name := "B",
     state_name := "S2", state_code := "C2", county_name := "N2",
     county_code := "K2", community_name := "M2", community_code := "Q2",
     latitude := 20, longitude := 5, accuracy := "2" }]

/-- An environment whose transport always fails and that does not force
refresh. -/
def env0 : GeoEnv :=
  { fetch := fun _ => .error .http, force := false, hav := fun _ _ => 0 }

/-- The state of a fresh engine over empty storage. -/
def st0 : GeoState :=
  { rawDisk := fun _ => none, uniqueDisk := fun _ => none, cache := [] }

/-- A state whose disk holds both cache files for US but whose in-process
mapping is empty. -/
def st2 : GeoState :=
  { rawDisk := fun k => if k = "US" then some [recUS1] else none,
    uniqueDisk := fun k => if k = "US" then some [recUS1] else none,
    cache := [] }

/-- A state whose in-process mapping already holds the US unique table. -/
def st3 : GeoState :=
  { rawDisk := fun _ => none, uniqueDisk := fun _ => none,
    cache := [("US", [recUS1])] }

/-- A transport in which the first provider fails with a non-HTTP error and
every other URL would succeed. -/
def fetchBad : String → Except FetchErr String :=
  fun u => if u = "a" then .error .other else .ok "data"

/-- A transport in which URL "a" fails with an HTTP error and every other
URL succeeds. -/
def fetchHttpA : String → Except FetchErr String :=
  fun u => if u = "a" then .error .http else .ok "data"

/-! ### Character-level lemmas -/

theorem toNat_ofNat_of_valid (n : Nat) (h : n.isValidChar) : (Char.ofNat n).toNat = n := by
  simp [Char.ofNat, Char.toNat, h, Char.ofNatAux, UInt32.toNat, BitVec.toNat_ofNatLt]

theorem lower_toNat {c : Char} (h : 'a' ≤ c ∧ c ≤ 'z') : 97 ≤ c.toNat ∧ c.toNat ≤ 122 := by
  obtain ⟨h1, h2⟩ := h
  rw [Char.le_def] at h1 h2
  exact ⟨h1, h2⟩

theorem pyUpperChar_toNat {c : Char} (h : 'a' ≤ c ∧ c ≤ 'z') :
    (pyUpperChar c).toNat = c.toNat - 32 := by
  have hb := lower_toNat h
  rw [pyUpperChar, if_pos h]
  apply toNat_ofNat_of_valid
  unfold Nat.isValidChar
  omega

theorem pyIsSpace_toNat_le {c : Char} (h : pyIsSpace c = true) : c.toNat ≤ 32 := by
  simp only [pyIsSpace, Bool.or_eq_true, beq_iff_eq] at h
  rcases h with ((((h | h) | h) | h) | h) | h <;> subst h <;> decide

theorem notSpace_of_ge (c : Char) (h : 33 ≤ c.toNat) : pyIsSpace c = false := by
  cases hs : pyIsSpace c
  · rfl
  · have := pyIsSpace_toNat_le hs
    omega

theorem pyIsSpace_pyUpperChar (c : Char) : pyIsSpace (pyUpperChar c) = pyIsSpace c := by
  by_cases h : 'a' ≤ c ∧ c ≤ 'z'
  · have hb := lower_toNat h
    have ht := pyUpperChar_toNat h
    rw [notSpace_of_ge _ (by omega), notSpace_of_ge _ (by omega)]
  · rw [pyUpperChar, if_neg h]

theorem pyUpperChar_idem (c : Char) : pyUpperChar (pyUpperChar c) = pyUpperChar c := by
  by_cases h : 'a' ≤ c ∧ c ≤ 'z'
  · have hb := lower_toNat h
    have ht := pyUpperChar_toNat h
    have hno : ¬('a' ≤ pyUpperChar c ∧ pyUpperChar c ≤ 'z') := by
      intro hcon
      have h2 := lower_toNat hcon
      rw [ht] at h2
      omega
    calc pyUpperChar (pyUpperChar c)
        = if 'a' ≤ pyUpperChar c ∧ pyUpperChar c ≤ 'z' then
            Char.ofNat ((pyUpperChar c).toNat - 32) else pyUpperChar c := rfl
      _ = pyUpperChar c := if_neg hno
  · have hfix : pyUpperChar c = c := by rw [pyUpperChar, if_neg h]
    simp only [hfix]

/-! ### String-level lemmas -/

theorem map_fixed {α : Type} {f : α → α} {l : List α} (h : ∀ a ∈ l, f a = a) :
    l.map f = l := by
  induction l with
  | nil => rfl
  | cons a t ih =>
    rw [List.map_cons, h a (List.mem_cons_self a t),
      ih (fun b hb => h b (List.mem_cons_of_mem a hb))]

theorem upperFixed_of_mem_map {c : Char} {l : List Char} (h : c ∈ l.map pyUpperChar) :
    pyUpperChar c = c := by
  obtain ⟨a, _, rfl⟩ := List.mem_map.mp h
  exact pyUpperChar_idem a

theorem pyStrUpper_data (s : String) : (pyStrUpper s).data = s.data.map pyUpperChar := rfl

theorem pyStrUpper_idem (s : String) : pyStrUpper (pyStrUpper s) = pyStrUpper s := by
  apply String.ext
  rw [pyStrUpper_data, pyStrUpper_data]
  exact map_fixed (fun a ha => upperFixed_of_mem_map ha)

/-! ### Lemmas about Python `str.split()` -/

theorem splitAux_all_space (l : List Char) (h : ∀ c ∈ l, pyIsSpace c = true) :
    splitAux l [] = [] := by
  induction l with
  | nil => rfl
  | cons c cs ih =>
    have hc := h c (List.mem_cons_self c cs)
    simp only [splitAux, hc, if_true, if_pos rfl]
    exact ih (fun a ha => h a (List.mem_cons_of_mem c ha))

theorem splitAux_acc_ne (l : List Char) : ∀ acc, acc ≠ [] → splitAux l acc ≠ [] := by
  induction l with
  | nil =>
    intro acc h
    simp only [splitAux, if_neg h]
    simp
  | cons c cs ih =>
    intro acc h
    simp only [splitAux]
    by_cases hsp : pyIsSpace c = true
    · simp [hsp, if_neg h]
    · simp only [hsp, if_false, Bool.false_eq_true]
      exact ih (c :: acc) (by simp)

theorem splitAux_ne_of_nonspace (l : List Char) :
    ∀ acc, (∃ c ∈ l, pyIsSpace c = false) → splitAux l acc ≠ [] := by
  induction l with
  | nil =>
    intro acc h
    simp at h
  | cons c cs ih =>
    intro acc h
    simp only [splitAux]
    by_cases hsp : pyIsSpace c = true
    · have hcs : ∃ a ∈ cs, pyIsSpace a = false := by
        obtain ⟨a, ha, hfa⟩ := h
        rcases List.mem_cons.mp ha with rfl | ha'
        · rw [hsp] at hfa
          cases hfa
        · exact ⟨a, ha', hfa⟩
      by_cases hacc : acc = ([] : List Char)
      · simp only [hsp, if_true, if_pos hacc]
        exact ih [] hcs
      · simp [hsp, if_neg hacc]
    · simp only [hsp, if_false, Bool.false_eq_true]
      exact splitAux_acc_ne cs (c :: acc) (by simp)

theorem splitAux_mem_ne (l : List Char) : ∀ acc w, w ∈ splitAux l acc → w ≠ [] := by
  induction l with
  | nil =>
    intro acc w hw
    by_cases hacc : acc = ([] : List Char)
    · simp [splitAux, hacc] at hw
    · simp only [splitAux, if_neg hacc, List.mem_singleton] at hw
      subst hw
      simp [hacc]
  | cons c cs ih =>
    intro acc w hw
    simp only [splitAux] at hw
    by_cases hsp : pyIsSpace c = true
    · by_cases hacc : acc = ([] : List Char)
      · rw [if_pos hsp, if_pos hacc] at hw
        exact ih [] w hw
      · rw [if_pos hsp, if_neg hacc] at hw
        rcases List.mem_cons.mp hw with rfl | hw'
        · simp [hacc]
        · exact ih [] w hw'
    · rw [if_neg hsp] at hw
      exact ih (c :: acc) w hw

theorem splitAux_mem_nonspace (l : List Char) :
    ∀ acc, (∀ c ∈ acc, pyIsSpace c = false) →
      ∀ w ∈ splitAux l acc, ∀ c ∈ w, pyIsSpace c = false := by
  induction l with
  | nil =>
    intro acc hacc w hw c hc
    by_cases he : acc = ([] : List Char)
    · simp [splitAux, he] at hw
    · simp only [splitAux, if_neg he, List.mem_singleton] at hw
      subst hw
      exact hacc c (List.mem_reverse.mp hc)
  | cons c cs ih =>
    intro acc hacc w hw d hd
    simp only [splitAux] at hw
    by_cases hsp : pyIsSpace c = true
    · by_cases he : acc = ([] : List Char)
      · rw [if_pos hsp, if_pos he] at hw
        exact ih [] (by simp) w hw d hd
      · rw [if_pos hsp, if_neg he] at hw
        rcases List.mem_cons.mp hw with rfl | hw'
        · exact hacc d (List.mem_reverse.mp hd)
        · exact ih [] (by simp) w hw' d hd
    · rw [if_neg hsp] at hw
      have hacc' : ∀ a ∈ c :: acc, pyIsSpace a = false := by
        intro a ha
        rcases List.mem_cons.mp ha with rfl | ha'
        · exact Bool.not_eq_true _ ▸ (by simpa using hsp)
        · exact hacc a ha'
      exact ih (c :: acc) hacc' w hw d hd

theorem splitAux_mem_subset (l : List Char) :
    ∀ acc w, w ∈ splitAux l acc → ∀ c ∈ w, c ∈ l ∨ c ∈ acc := by
  induction l with
  | nil =>
    intro acc w hw c hc
    by_cases he : acc = ([] : List Char)
    · simp [splitAux, he] at hw
    · simp only [splitAux, if_neg he, List.mem_singleton] at hw
      subst hw
      exact Or.inr (List.mem_reverse.mp hc)
  | cons c cs ih =>
    intro acc w hw d hd
    simp only [splitAux] at hw
    by_cases hsp : pyIsSpace c = true
    · by_cases he : acc = ([] : List Char)
      · rw [if_pos hsp, if_pos he] at hw
        rcases ih [] w hw d hd with h | h
        · exact Or.inl (List.mem_cons_of_mem c h)
        · simp at h
      · rw [if_pos hsp, if_neg he] at hw
        rcases List.mem_cons.mp hw with rfl | hw'
        · exact Or.inr (List.mem_reverse.mp hd)
        · rcases ih [] w hw' d hd with h | h
          · exact Or.inl (List.mem_cons_of_mem c h)
          · simp at h
    · rw [if_neg hsp] at hw
      rcases ih (c :: acc) w hw d hd with h | h
      · exact Or.inl (List.mem_cons_of_mem c h)
      · rcases List.mem_cons.mp h with rfl | h'
        · exact Or.inl (List.mem_cons_self d cs)
        · exact Or.inr h'

theorem splitAux_all_nonspace (l : List Char) :
    ∀ acc, (∀ c ∈ l, pyIsSpace c = false) → acc.reverse ++ l ≠ [] →
      splitAux l acc = [acc.reverse ++ l] := by
  induction l with
  | nil =>
    intro acc _ hne
    have hacc : acc ≠ [] := by
      intro h
      apply hne
      simp [h]
    simp [splitAux, if_neg hacc]
  | cons c cs ih =>
    intro acc h _
    have hc : pyIsSpace c = false := h c (List.mem_cons_self c cs)
    simp only [splitAux, hc, Bool.false_eq_true, if_false]
    have := ih (c :: acc) (fun a ha => h a (List.mem_cons_of_mem c ha)) (by simp)
    rw [this]
    simp

theorem pySplitWs_singleton (l : List Char) (h1 : l ≠ [])
    (h2 : ∀ c ∈ l, pyIsSpace c = false) : pySplitWs l = [l] := by
  have := splitAux_all_nonspace l [] h2 (by simpa using h1)
  simpa [pySplitWs] using this

/-! ### Lemmas about `preprocess_postal_code` -/

theorem preprocess_special (country : String)
    (hs : pyStrUpper country ∈ (["GB", "IE", "CA"] : List String))
    (code : String) (hc : code ≠ "") :
    preprocess_postal_code code country =
      match pySplitWs (pyStrUpper code).data with
      | [] => .error .indexError
      | w :: _ => .ok ⟨w⟩ := by
  simp only [preprocess_postal_code, if_neg hc, if_pos hs]

theorem preprocess_plain (country : String)
    (hs : pyStrUpper country ∉ (["GB", "IE", "CA"] : List String))
    (code : String) (hc : code ≠ "") :
    preprocess_postal_code code country = .ok (pyStrUpper code) := by
  simp only [preprocess_postal_code, if_neg hc, if_neg hs]

theorem preprocess_ok_cases (code country r : String)
    (h : preprocess_postal_code code country = .ok r) :
    r = ""
    ∨ (pyStrUpper country ∈ (["GB", "IE", "CA"] : List String) ∧ code ≠ ""
        ∧ ∃ w ws, pySplitWs (pyStrUpper code).data = w :: ws ∧ r = ⟨w⟩)
    ∨ (pyStrUpper country ∉ (["GB", "IE", "CA"] : List String) ∧ code ≠ ""
        ∧ r = pyStrUpper code) := by
  by_cases hc : code = ""
  · left
    subst hc
    have he : preprocess_postal_code "" country = .ok "" := by
      simp [preprocess_postal_code]
    exact (Except.ok.inj (he.symm.trans h)).symm
  · by_cases hs : pyStrUpper country ∈ (["GB", "IE", "CA"] : List String)
    · right
      left
      rw [preprocess_special country hs code hc] at h
      cases hspl : pySplitWs (pyStrUpper code).data with
      | nil =>
        rw [hspl] at h
        cases h
      | cons w ws =>
        rw [hspl] at h
        simp only [Except.ok.injEq] at h
        exact ⟨hs, hc, w, ws, rfl, h.symm⟩
    · right
      right
      rw [preprocess_plain country hs code hc] at h
      simp only [Except.ok.injEq] at h
      exact ⟨hs, hc, h.symm⟩

theorem string_mk_ne_empty {w : List Char} (h : w ≠ []) : (⟨w⟩ : String) ≠ "" := by
  intro hcon
  apply h
  simpa using congrArg String.data hcon

theorem preprocess_ok_upper_fixed (code country r : String)
    (h : preprocess_postal_code code country = .ok r) : pyStrUpper r = r := by
  rcases preprocess_ok_cases code country r h with rfl | ⟨_, _, w, ws, hspl, rfl⟩ | ⟨_, _, rfl⟩
  · rfl
  · have hsub := splitAux_mem_subset (pyStrUpper code).data []
    have hfix : ∀ c ∈ w, pyUpperChar c = c := by
      intro c hc
      rcases hsub w (by rw [pySplitWs] at hspl; rw [hspl]; exact List.mem_cons_self w ws) c hc with hm | hm
      · exact upperFixed_of_mem_map (by rwa [pyStrUpper_data] at hm)
      · simp at hm
    exact congrArg String.mk (map_fixed hfix)
  · exact pyStrUpper_idem code

/-- C10: `preprocess_postal_code` is idempotent — whenever it succeeds on a
string code, applying it to its own output returns that output unchanged
(the output is already uppercase and, for GB/IE/CA, whitespace-free). -/
theorem preprocess_idempotent (code country r : String)
    (h : preprocess_postal_code code country = .ok r) :
    preprocess_postal_code r country = .ok r := by
  rcases preprocess_ok_cases code country r h with rfl | ⟨hs, _, w, ws, hspl, rfl⟩ | ⟨hs, hc, rfl⟩
  · simp [preprocess_postal_code]
  · have hmem : w ∈ splitAux (pyStrUpper code).data [] := by
      rw [pySplitWs] at hspl
      rw [hspl]
      exact List.mem_cons_self w ws
    have hw_ne : w ≠ [] := splitAux_mem_ne (pyStrUpper code).data [] w hmem
    have hw_nonspace : ∀ c ∈ w, pyIsSpace c = false :=
      splitAux_mem_nonspace (pyStrUpper code).data [] (by simp) w hmem
    have hw_fixed : ∀ c ∈ w, pyUpperChar c = c := by
      intro c hc
      rcases splitAux_mem_subset (pyStrUpper code).data [] w hmem c hc with hm | hm
      · exact upperFixed_of_mem_map (by rwa [pyStrUpper_data] at hm)
      · simp at hm
    have h1 : (⟨w⟩ : String) ≠ "" := string_mk_ne_empty hw_ne
    rw [preprocess_special country hs _ h1]
    have h2 : pyStrUpper (⟨w⟩ : String) = ⟨w⟩ := congrArg String.mk (map_fixed hw_fixed)
    have h4 : (pyStrUpper (⟨w⟩ : String)).data = w := by rw [h2]
    rw [h4, pySplitWs_singleton w hw_ne hw_nonspace]
  · have h1 : pyStrUpper code ≠ "" := by
      intro hcon
      apply hc
      apply String.ext
      have := congrArg String.data hcon
      rw [pyStrUpper_data] at this
      simpa using this
    rw [preprocess_plain country hs _ h1, pyStrUpper_idem]

/-- C10 witness: idempotence applied at the concrete GB example. -/
theorem preprocess_idempotent_witness :
    preprocess_postal_code "n1 1aa" "GB" = .ok "N1"
    ∧ preprocess_postal_code "N1" "GB" = .ok "N1" :=
  ⟨by decide, preprocess_idempotent "n1 1aa" "GB" "N1" (by decide)⟩

/-- C9: for GB/IE/CA, a non-empty all-whitespace code makes
`preprocess_postal_code` fail with `IndexError` (`code.split()[0]` on an
empty split), while any code containing a non-whitespace character succeeds
and yields a non-empty string; the `code == ''` guard does not cover
whitespace-only inputs. -/
theorem preprocess_whitespace_gbieca (country code : String)
    (hs : pyStrUpper country ∈ (["GB", "IE", "CA"] : List String))
    (hc : code ≠ "") :
    ((∀ c ∈ code.data, pyIsSpace c = true) →
        preprocess_postal_code code country = .error .indexError)
    ∧ ((∃ c ∈ code.data, pyIsSpace c = false) →
        ∃ r, preprocess_postal_code code country = .ok r ∧ r ≠ "") := by
  rw [preprocess_special country hs code hc]
  constructor
  · intro hall
    have hall' : ∀ c ∈ (pyStrUpper code).data, pyIsSpace c = true := by
      rw [pyStrUpper_data]
      intro c hcm
      obtain ⟨a, ha, rfl⟩ := List.mem_map.mp hcm
      rw [pyIsSpace_pyUpperChar]
      exact hall a ha
    rw [pySplitWs, splitAux_all_space _ hall']
  · intro hex
    have hex' : ∃ c ∈ (pyStrUpper code).data, pyIsSpace c = false := by
      obtain ⟨a, ha, hfa⟩ := hex
      refine ⟨pyUpperChar a, ?_, ?_⟩
      · rw [pyStrUpper_data]
        exact List.mem_map.mpr ⟨a, ha, rfl⟩
      · rw [pyIsSpace_pyUpperChar]
        exact hfa
    have hne := splitAux_ne_of_nonspace (pyStrUpper code).data [] hex'
    cases hspl : pySplitWs (pyStrUpper code).data with
    | nil =>
      rw [pySplitWs] at hspl
      exact absurd hspl hne
    | cons w ws =>
      refine ⟨⟨w⟩, rfl, ?_⟩
      apply string_mk_ne_empty
      apply splitAux_mem_ne (pyStrUpper code).data [] w
      rw [pySplitWs] at hspl
      rw [hspl]
      exact List.mem_cons_self w ws

/-- C9 witness: the GB failure at the whitespace-only code `" "` and the
success with non-empty output at `"n1 1aa"`. -/
theorem preprocess_whitespace_gbieca_witness :
    preprocess_postal_code " " "GB" = .error .indexError
    ∧ ∃ r, preprocess_postal_code "n1 1aa" "GB" = .ok r ∧ r ≠ "" := by
  constructor
  · exact (preprocess_whitespace_gbieca "GB" " " (by decide) (by decide)).1 (by decide)
  · exact (preprocess_whitespace_gbieca "GB" "n1 1aa" (by decide) (by decide)).2
      ⟨'n', by decide, by decide⟩

/-- C2 counterexample: `preprocess_postal_code("12345 ", "US")` returns
`"12345 "` with the trailing space kept (the source never strips), not
`"12345"` as claimed. -/
theorem preprocess_trailing_space_kept :
    preprocess_postal_code "12345 " "US" = .ok "12345 "
    ∧ ("12345 " : String) ≠ "12345" := by
  constructor
  · decide
  · decide

/-- C2 amended: `preprocess_postal_code` uppercases the code for every
country and keeps only the leading whitespace-delimited segment for
GB/IE/CA (`normalize("n1 1aa", "GB") = "N1"`), but it never strips
surrounding whitespace for other countries: `normalize("12345 ", "US")`
returns `"12345 "` (trailing space kept), not `"12345"`.  Every successful
result is uppercase-fixed. -/
theorem preprocess_uppercase_amended :
    preprocess_postal_code "12345 " "US" = .ok "12345 "
    ∧ preprocess_postal_code "n1 1aa" "GB" = .ok "N1"
    ∧ ∀ (code country r : String),
        preprocess_postal_code code country = .ok r → pyStrUpper r = r := by
  refine ⟨by decide, by decide, ?_⟩
  intro code country r h
  exact preprocess_ok_upper_fixed code country r h

/-- C2 witness: the uppercase-fixed-output clause applied at a concrete
input. -/
theorem preprocess_uppercase_amended_witness :
    preprocess_postal_code "abc" "US" = .ok "ABC" ∧ pyStrUpper "ABC" = "ABC" :=
  ⟨by decide, preprocess_uppercase_amended.2.2 "abc" "US" "ABC" (by decide)⟩

/-! ### Claims about the URL cycler -/

/-- C5 counterexample: with a non-HTTP transport failure at the first of two
URLs, the cycler propagates immediately — the second URL is never attempted
and no warning is emitted — contradicting the claim that every retrieval
failure at a non-last URL warns and continues to the next URL, with each URL
attempted exactly once. -/
theorem cycleUrl_nonhttp_stops_early :
    cycleUrl fetchBad ["a", "b"] = (.error (.fetch .other), ["a"], 0)
    ∧ "b" ∉ (cycleUrl fetchBad ["a", "b"]).2.1 := by
  constructor
  · decide
  · decide

/-- C5 amended: the cycler fails with the configuration `ValueError` exactly
on an empty template list (non-list inputs are excluded by typing); a
successful URL stops the cycle; an *HTTP* retrieval failure at a non-last
URL emits one recoverable warning and continues to the next URL, and at the
last URL propagates; a *non-HTTP* retrieval failure propagates immediately
from any position; the attempted URLs always form a prefix of the template
list, so no URL is ever attempted more than once per call. -/
theorem cycleUrl_behaviour :
    (∀ (α : Type) (f : String → Except FetchErr α),
        cycleUrl f [] = (.error .config, [], 0))
    ∧ (∀ (α : Type) (f : String → Except FetchErr α) (u : String) (a : α)
        (rest : List String), f u = .ok a →
        cycleUrl f (u :: rest) = (.ok a, [u], 0))
    ∧ (∀ (α : Type) (f : String → Except FetchErr α) (u : String)
        (rest : List String), rest ≠ [] → f u = .error .http →
        cycleUrl f (u :: rest) =
          ((cycleUrl f rest).1, u :: (cycleUrl f rest).2.1,
            (cycleUrl f rest).2.2 + 1))
    ∧ (∀ (α : Type) (f : String → Except FetchErr α) (u : String),
        f u = .error .http → cycleUrl f [u] = (.error (.fetch .http), [u], 0))
    ∧ (∀ (α : Type) (f : String → Except FetchErr α) (u : String)
        (rest : List String), f u = .error .other →
        cycleUrl f (u :: rest) = (.error (.fetch .other), [u], 0))
    ∧ (∀ (α : Type) (f : String → Except FetchErr α) (urls : List String),
        ∃ t, (cycleUrl f urls).2.1 ++ t = urls) := by
  refine ⟨fun α f => rfl, ?_, ?_, ?_, ?_, ?_⟩
  · intro α f u a rest hf
    cases rest with
    | nil => simp [cycleUrl, cycleGo, hf]
    | cons v r => simp [cycleUrl, cycleGo, hf]
  · intro α f u rest hne hf
    cases rest with
    | nil => exact absurd rfl hne
    | cons v r => simp [cycleUrl, cycleGo, hf]
  · intro α f u hf
    simp [cycleUrl, cycleGo, hf]
  · intro α f u rest hf
    cases rest with
    | nil => simp [cycleUrl, cycleGo, hf]
    | cons v r => simp [cycleUrl, cycleGo, hf]
  · intro α f urls
    induction urls with
    | nil => exact ⟨[], rfl⟩
    | cons u rest ih =>
      cases rest with
      | nil =>
        cases hf : f u with
        | ok a => exact ⟨[], by simp [cycleUrl, cycleGo, hf]⟩
        | error e => exact ⟨[], by simp [cycleUrl, cycleGo, hf]⟩
      | cons v r =>
        cases hf : f u with
        | ok a => exact ⟨v :: r, by simp [cycleUrl, cycleGo, hf]⟩
        | error e =>
          cases e with
          | http =>
            obtain ⟨t, ht⟩ := ih
            refine ⟨t, ?_⟩
            simp only [cycleUrl, cycleGo, hf] at ht ⊢
            simp only [if_neg (List.cons_ne_nil v r)] at ht
            simp [ht]
          | other => exact ⟨v :: r, by simp [cycleUrl, cycleGo, hf]⟩

/-- C5 witness: the amended behaviour instantiated on concrete transports —
HTTP failure at "a" continues to "b" with one warning, HTTP failure at a
last URL propagates, a non-HTTP failure stops at once, and a success stops
the cycle. -/
theorem cycleUrl_behaviour_witness :
    cycleUrl fetchHttpA ("a" :: ["b"]) =
      ((cycleUrl fetchHttpA ["b"]).1, "a" :: (cycleUrl fetchHttpA ["b"]).2.1,
        (cycleUrl fetchHttpA ["b"]).2.2 + 1)
    ∧ cycleUrl fetchHttpA ["a"] = (.error (.fetch .http), ["a"], 0)
    ∧ cycleUrl fetchBad ("a" :: ["b"]) = (.error (.fetch .other), ["a"], 0)
    ∧ cycleUrl fetchHttpA ("b" :: ([] : List String)) = (.ok "data", ["b"], 0) := by
  refine ⟨?_, ?_, ?_, ?_⟩
  · exact cycleUrl_behaviour.2.2.1 String fetchHttpA "a" ["b"] (by decide) (by decide)
  · exact cycleUrl_behaviour.2.2.2.1 String fetchHttpA "a" (by decide)
  · exact cycleUrl_behaviour.2.2.2.2.1 String fetchBad "a" ["b"] (by decide)
  · exact cycleUrl_behaviour.2.1 String fetchHttpA "b" "data" [] (by decide)

/-! ### Lemmas about the engine -/

theorem cacheLookup_none (cache : List (String × UniqueTable)) (C : String)
    (hwf : ∀ p ∈ cache, p.1 ∈ COUNTRIES_VALID) (hC : C ∉ COUNTRIES_VALID) :
    cacheLookup cache C = none := by
  induction cache with
  | nil => rfl
  | cons p rest ih =>
    obtain ⟨k, v⟩ := p
    simp only [cacheLookup]
    by_cases he : C = k
    · subst he
      exact (hC (hwf (C, v) (List.mem_cons_self _ _))).elim
    · rw [if_neg he]
      exact ih (fun q hq => hwf q (List.mem_cons_of_mem _ hq))

theorem get_raw_disk_hit (env : GeoEnv) (s : GeoState) (country : String) (t : RawTable)
    (h : s.rawDisk (pyStrUpper country) = some t) (hf : env.force = false) :
    get_raw_geo_data env s country = (.ok t, s, [.rawRead (pyStrUpper country)]) := by
  simp only [get_raw_geo_data, h, hf]

/-! ### Claims about the unique-table cache -/

/-- C7: for any country whose uppercased code is outside the fixed catalog,
`get_unique_geo_data` reports the condition with an informational print and
returns `None` without raising, leaving the state untouched (for every
well-formed state and environment). -/
theorem get_unique_invalid_country_none (env : GeoEnv) (s : GeoState) (country : String)
    (hwf : s.WF) (hC : pyStrUpper country ∉ COUNTRIES_VALID) :
    get_unique_geo_data env s country =
      (.ok none, s, [.printedInvalidCountry (pyStrUpper country)]) := by
  have hnone := cacheLookup_none s.cache (pyStrUpper country) hwf hC
  simp only [get_unique_geo_data, hnone, if_neg hC]

/-- C7 witness: the invalid country "ZZ" over a fresh engine and empty
storage. -/
theorem get_unique_invalid_country_none_witness :
    get_unique_geo_data env0 st0 "ZZ" = (.ok none, st0, [.printedInvalidCountry "ZZ"]) := by
  have h := get_unique_invalid_country_none env0 st0 "ZZ"
    (by intro p hp; simp [st0] at hp) (by decide)
  have e : pyStrUpper "ZZ" = "ZZ" := by decide
  rw [e] at h
  exact h

/-- C8: once a country's unique table is stored in the in-process mapping,
`get_unique_geo_data` on any case variant of that country returns the stored
table with no recomputation, no disk access, no fetch, and no state change —
whatever the on-disk cache files contain. -/
theorem get_unique_memory_cache_hit (env : GeoEnv) (s : GeoState) (country : String)
    (t : UniqueTable) (h : cacheLookup s.cache (pyStrUpper country) = some t) :
    get_unique_geo_data env s country = (.ok (some t), s, []) := by
  simp only [get_unique_geo_data, h]

/-- C8 witness: a state caching the US table answers `"us"` from memory. -/
theorem get_unique_memory_cache_hit_witness :
    get_unique_geo_data env0 st3 "us" = (.ok (some [recUS1]), st3, []) :=
  get_unique_memory_cache_hit env0 st3 "us" [recUS1] (by decide)

/-- C3 counterexample: over a state where both the raw and unique cache
files for "US" exist and refresh is not forced, `get_unique_geo_data` does
return the parsed unique file, but its event trace contains a raw-table disk
read — contradicting the claim that no raw-table read, fetch, or download
occurs on this path. -/
theorem get_unique_reads_raw_on_cache_hit :
    (get_unique_geo_data env0 st2 "US").1 = .ok (some [recUS1])
    ∧ Ev.rawRead "US" ∈ (get_unique_geo_data env0 st2 "US").2.2 := by
  constructor
  · decide
  · decide

/-- C3 amended: when the on-disk unique-table file exists and forced refresh
is off (valid country, no in-process entry), `get_unique_geo_data` parses
and returns that file — but only after unconditionally obtaining the raw
table via `get_raw_geo_data` first (here a raw-cache disk read; a download
when the raw file is absent), because the source calls `get_raw_geo_data`
before checking the unique-table cache file. -/
theorem get_unique_cache_hit_still_obtains_raw (env : GeoEnv) (s : GeoState)
    (country C : String) (rt : RawTable) (u : UniqueTable)
    (hC : pyStrUpper country = C)
    (hvalid : C ∈ COUNTRIES_VALID)
    (hmiss : cacheLookup s.cache C = none)
    (hraw : s.rawDisk C = some rt)
    (huniq : s.uniqueDisk C = some u)
    (hf : env.force = false) :
    get_unique_geo_data env s country =
      (.ok (some u), { s with cache := (C, u) :: s.cache },
        (if C = "AR" then [Ev.warnedAR] else []) ++ [.rawRead C, .uniqueRead C]) := by
  have hCC : pyStrUpper C = C := by rw [← hC, pyStrUpper_idem]
  have hr : get_raw_geo_data env s C = (.ok rt, s, [.rawRead C]) := by
    have h0 := get_raw_disk_hit env s C rt (by rw [hCC]; exact hraw) hf
    rwa [hCC] at h0
  simp only [get_unique_geo_data, hC, hmiss, if_pos hvalid, hr, huniq, hf]
  simp

/-- C3 witness: the amended behaviour evaluated at the concrete "US" state
with both cache files present. -/
theorem get_unique_cache_hit_still_obtains_raw_witness :
    get_unique_geo_data env0 st2 "US" =
      (.ok (some [recUS1]), { st2 with cache := ("US", [recUS1]) :: st2.cache },
        (if "US" = "AR" then [Ev.warnedAR] else []) ++ [.rawRead "US", .uniqueRead "US"]) :=
  get_unique_cache_hit_still_obtains_raw env0 st2 "US" "US" [recUS1] [recUS1]
    (by decide) (by decide) (by decide) (by decide) (by decide) (by decide)

/-! ### Claims about the query surface -/

/-- C4 counterexample: with the invalid country "ZZ", `get_geolocation`
fails with an `AttributeError` (`None` has no attribute `loc`), which is not
a `LookupError` in Python's exception hierarchy — contradicting the claim
that both failure cases raise a `LookupError`. -/
theorem get_geolocation_invalid_country_attrError :
    (get_geolocation env0 st0 "10001" "ZZ").1 = .error .attrError
    ∧ isLookupError .attrError = false := by
  constructor
  · decide
  · decide

/-- C4 amended: `get_geolocation` fails — and the failure is raised to the
caller, never swallowed into a `None` return — in both cases: with an
invalid country it raises `AttributeError` (from `.loc` on the `None`
table; not a `LookupError`), and with a valid country whose unique table
lacks the normalized code it raises `KeyError` (a `LookupError`). -/
theorem get_geolocation_failures_raised :
    (∀ (env : GeoEnv) (s : GeoState) (code country : String),
        s.WF → pyStrUpper country ∉ COUNTRIES_VALID →
        (get_geolocation env s code country).1 = .error .attrError)
    ∧ (∀ (env : GeoEnv) (s : GeoState) (code country code' : String)
        (t : UniqueTable) (s1 : GeoState) (evs : List Ev),
        preprocess_postal_code code country = .ok code' →
        get_unique_geo_data env s country = (.ok (some t), s1, evs) →
        t.find? (fun r => r.postal_code == code') = none →
        get_geolocation env s code country = (.error .keyError, s1, evs))
    ∧ isLookupError .keyError = true
    ∧ isLookupError .attrError = false := by
  refine ⟨?_, ?_, rfl, rfl⟩
  · intro env s code country hwf hC
    have hgb : pyStrUpper country ∉ (["GB", "IE", "CA"] : List String) := by
      intro hin
      apply hC
      simp only [List.mem_cons, List.not_mem_nil, or_false] at hin
      rcases hin with h | h | h <;> rw [h] <;> decide
    have hok : ∃ c', preprocess_postal_code code country = .ok c' := by
      by_cases hc : code = ""
      · refine ⟨"", ?_⟩
        subst hc
        simp [preprocess_postal_code]
      · exact ⟨pyStrUpper code, preprocess_plain country hgb code hc⟩
    obtain ⟨c', hc'⟩ := hok
    have hu := get_unique_invalid_country_none env s country hwf hC
    simp only [get_geolocation, hc', hu]
  · intro env s code country code' t s1 evs hpre huniq hfind
    simp only [get_geolocation, hpre, huniq, hfind]

/-- C4 witness: both amended failure modes at concrete inputs — "ZZ" raises
the attribute error over a fresh state; "US" with an absent code raises the
key error over a state whose US table is cached in memory. -/
theorem get_geolocation_failures_raised_witness :
    (get_geolocation env0 st0 "10001" "ZZ").1 = .error .attrError
    ∧ get_geolocation env0 st3 "99999" "US" = (.error .keyError, st3, []) := by
  constructor
  · exact get_geolocation_failures_raised.1 env0 st0 "10001" "ZZ"
      (by intro p hp; simp [st0] at hp) (by decide)
  · exact get_geolocation_failures_raised.2.1 env0 st3 "99999" "US" "99999"
      [recUS1] st3 [] (by decide) rfl (by decide)

/-- C6: `query_postal_code(x, cx, x, cx)` returns `0` for every code and
country — included absent codes and invalid countries — immediately: the
identity short-circuit leaves the state untouched and performs no effect at
all (no normalization, no table load, no lookup), for any environment and
state. -/
theorem query_postal_code_identity_shortcircuit (env : GeoEnv) (s : GeoState)
    (code country : String) :
    query_postal_code env s code country code country = (.ok (some 0), s, []) := by
  simp [query_postal_code]

/-! ### Claim about the dedup/aggregation step -/

/-- C1 (code-bug evaluation): on two raw rows sharing postal code "111", the
computed unique row's latitude is the FIRST row's latitude (10), not the
group mean (15): the `"lattitude"` misspelling in the exclusion list leaves
`latitude` among the keys overwritten with `first()`.  Longitude is the mean
(4), place_name is the ", "-joined concatenation in first-seen order, and
every other field comes from the first row, as the claim states. -/
theorem computeUnique_latitude_first_not_mean :
    computeUnique rawPair =
      [{ country_code := "US", postal_code := "111", place_name := "A, B",
         state_name := "S1", state_code := "C1", county_name := "N1",
         county_code := "K1", community_name := "M1", community_code := "Q1",
         latitude := 10, longitude := ratMean [3, 5], accuracy := "1" }]
    ∧ ratMean (rawPair.map (fun r => r.latitude)) = 15
    ∧ (10 : Rat) ≠ 15
    ∧ ratMean [3, 5] = 4
    ∧ "latitude" ∈ validKeys
    ∧ "longitude" ∉ validKeys := by
  refine ⟨rfl, ?_, by norm_num, ?_, by decide, by decide⟩
  · show ratMean [(10 : Rat), 20] = 15
    norm_num [ratMean, List.sum_cons, List.sum_nil, List.length_cons, List.length_nil]
  · norm_num [ratMean, List.sum_cons, List.sum_nil, List.length_cons, List.length_nil]

end PGeo
